import Mathlib

/-!
# logservice: filter, transform and ingest of log-drain records

A shallow embedding of `logservice.go` and `handlers.go`.

Modelling conventions.

* A Go `string` is a Lean `String`; Go compares strings bytewise, which on valid
  UTF-8 text is the code-point order of Lean.  A Go `[]byte` holding a raw record
  or a request body is a `List UInt8`.
* The Go `error` interface is an `Option Error` (`none` is `nil`), and a Go
  function returning `(value, error)` returns a pair, as in the source.
* Packages the repository imports are not part of it.  `gjson.GetBytes`, the
  Elasticsearch client constructors and the bulk indexer are parameters of the
  definitions that call them; `sort`, `bufio.Scanner`, `net/http.StatusText`,
  `gjson.Result` and `sjson.SetBytes` are modelled by definitions documented as
  such.
* A `float64` is only carried from the input to the output; it is represented by
  what the code can observe of it.
-/

namespace Logservice

/-! ## Go runtime and standard library -/

/-- The Go `error` interface, represented by its message (`Error()`). -/
abbrev Error := String

/-- A Go byte slice. -/
abbrev Bytes := List UInt8

/-- Loop of `sort.Search`: `for i < j { h := int(uint(i+j) >> 1); if !f(h) { i = h + 1 } else { j = h } }`.
The first argument bounds the number of iterations; `Search` passes `n`, which
is enough because `j - i` starts at `n` and shrinks in every iteration. -/
def searchLoop (f : Nat → Bool) : Nat → Nat → Nat → Nat
  | 0, i, _ => i
  | fuel + 1, i, j =>
    if i < j then
      let h := (i + j) / 2
      if !f h then searchLoop f fuel (h + 1) j else searchLoop f fuel i h
    else i

/-- Go `sort.Search(n, f)`. -/
def Search (n : Nat) (f : Nat → Bool) : Nat :=
  searchLoop f n 0 n

/-- Lexicographic `<` on character sequences, the comparison Go applies to
strings. -/
def ltChars : List Char → List Char → Bool
  | _, [] => false
  | [], _ :: _ => true
  | a :: as, b :: bs => if a < b then true else if b < a then false else ltChars as bs

/-- Go `a <= b` on strings. -/
def strLE (a b : String) : Bool :=
  !ltChars b.data a.data

/-- Go `sort.SearchStrings(a, x)`: `Search(len(a), func(i int) bool { return a[i] >= x })`.
`Search` calls the predicate only at indices below `len(a)`. -/
def SearchStrings (a : List String) (x : String) : Nat :=
  Search a.length (fun i => strLE x (a.getD i ""))

/-- Go `sort.Strings(a)`: the slice in increasing order.  Strings that compare
equal are equal, so every sorting algorithm returns this same list
(see `sortStrings_unique`). -/
def sortStrings (a : List String) : List String :=
  a.insertionSort (fun x y => strLE x y = true)

/-! ## Service and configuration (`logservice.go`) -/

/-- The `Config` struct (the logger is not modelled); `FlushInterval` is a
`time.Duration` in nanoseconds. -/
structure Config where
  ValidSource : List String
  IndexName : String
  FlushInterval : Int
  FlushBytes : Int
  ElasticsearchURL : String
  ElasticsearchAPIKey : String

/-- The fields of `elasticsearch.Config` that `New` sets. -/
structure ClientConfig where
  APIKey : String
  Addresses : List String
  RetryOnStatus : List Nat
  MaxRetries : Nat

/-- The fields of `esutil.BulkIndexerConfig` that `New` sets (the `OnError`
callback only prints). -/
structure BulkIndexerConfig (C : Type) where
  Index : String
  FlushInterval : Int
  FlushBytes : Int
  Client : C

/-- The two constructors of the Elasticsearch packages that `New` calls:
`elasticsearch.NewClient` and `esutil.NewBulkIndexer`. -/
structure Elastic (C I : Type) where
  NewClient : ClientConfig → Except Error C
  NewBulkIndexer : BulkIndexerConfig C → Except Error I

/-- The `Service` struct (the logger is not modelled). -/
structure Service (I : Type) where
  indexer : I
  validSource : List String

/-- The allow-list `New` works with: `cfg.ValidSource`, or the default when
`len(cfg.ValidSource) < 1`. -/
def allowList (cfg : Config) : List String :=
  if cfg.ValidSource.length < 1 then ["build", "lambda"] else cfg.ValidSource

/-- Go `New(cfg)`. -/
def New {C I : Type} (es : Elastic C I) (cfg : Config) : Except Error (Service I) :=
  if cfg.ElasticsearchURL = "" then
    .error "missing Elasticsearch URL"
  else if cfg.IndexName = "" then
    .error "missing index name"
  else
    let validSource := sortStrings (allowList cfg)
    match es.NewClient
        { APIKey := cfg.ElasticsearchAPIKey
          Addresses := [cfg.ElasticsearchURL]
          RetryOnStatus := [502, 503, 504, 429]
          MaxRetries := 10 } with
    | .error err => .error ("error creating Elasticsearch client: " ++ err)
    | .ok esclient =>
      match es.NewBulkIndexer
          { Index := cfg.IndexName
            FlushInterval := cfg.FlushInterval
            FlushBytes := cfg.FlushBytes
            Client := esclient } with
      | .error err => .error ("error creating the indexer: " ++ err)
      | .ok indexer => .ok { indexer := indexer, validSource := validSource }

/-! ## `gjson.Result` -/

/-- A `float64`, represented by the results of the three operations the code
applies to one: `strconv.FormatFloat(f, 'f', -1, 64)`, the `safeInt(f)` of gjson
(the integer value when `f` lies within ±(2^53 - 1)) and the Go conversion
`int64(f)`. -/
structure Float64 where
  format : String
  safeInt : Option Int
  toInt64 : Int

/-- The `float64` zero value. -/
def Float64.zero : Float64 :=
  { format := "0", safeInt := some 0, toInt64 := 0 }

/-- The `gjson.Type` enumeration. -/
inductive ResultType where
  | Null
  | False
  | Number
  | String
  | True
  | JSON
  deriving DecidableEq

/-- The `gjson.Result` struct (field `Type` is `Typ` here; `Index` is not used). -/
structure Result where
  Typ : ResultType
  Raw : String
  Str : String
  Num : Float64

/-- The zero `Result`, which gjson returns when the path finds nothing. -/
def Result.zero : Result :=
  { Typ := .Null, Raw := "", Str := "", Num := Float64.zero }

/-- Method `Result.Exists`: `t.Type != Null || len(t.Raw) != 0`. -/
def Result.Exists (t : Result) : Bool :=
  t.Typ != .Null || t.Raw.length != 0

/-- Method `Result.String`. -/
def Result.String (t : Result) : String :=
  match t.Typ with
  | .False => "false"
  | .Number =>
    if t.Raw.length = 0 then t.Num.format
    else
      let digits := match t.Raw.data with
        | '-' :: cs => cs
        | cs => cs
      if digits.all (fun c => decide ('0' ≤ c) && decide (c ≤ '9')) then t.Raw
      else t.Num.format
  | .String => t.Str
  | .JSON => t.Raw
  | .True => "true"
  | .Null => ""

/-- Two's-complement wrap-around of `int64` arithmetic. -/
def wrap64 (n : Int) : Int :=
  (n + 2 ^ 63) % 2 ^ 64 - 2 ^ 63

/-- Digit loop of the `parseInt` of gjson: `n = n*10 + int64(s[i]-'0')`, failing
at the first non-digit. -/
def parseDigits : List Char → Int → Option Int
  | [], n => some n
  | c :: cs, n =>
    if '0' ≤ c ∧ c ≤ '9' then parseDigits cs (wrap64 (n * 10 + (c.toNat - 48 : Nat)))
    else none

/-- Function `parseInt` of gjson; `none` is `ok == false`. -/
def parseInt (s : String) : Option Int :=
  match s.data with
  | [] => none
  | '-' :: cs => if cs.isEmpty then none else (parseDigits cs 0).map (fun n => wrap64 (n * -1))
  | cs => parseDigits cs 0

/-- Method `Result.Int`. -/
def Result.Int (t : Result) : Int :=
  match t.Typ with
  | .True => 1
  | .String => (parseInt t.Str).getD 0
  | .Number =>
    match t.Num.safeInt with
    | some i => i
    | none =>
      match parseInt t.Raw with
      | some i => i
      | none => t.Num.toInt64
  | _ => 0

/-! ## `net/http.StatusText` -/

/-- The reason phrases of `net/http`. -/
def statusText : List (Int × String) :=
  [ (100, "Continue"), (101, "Switching Protocols"), (102, "Processing"), (103, "Early Hints"),
    (200, "OK"), (201, "Created"), (202, "Accepted"), (203, "Non-Authoritative Information"),
    (204, "No Content"), (205, "Reset Content"), (206, "Partial Content"), (207, "Multi-Status"),
    (208, "Already Reported"), (226, "IM Used"),
    (300, "Multiple Choices"), (301, "Moved Permanently"), (302, "Found"), (303, "See Other"),
    (304, "Not Modified"), (305, "Use Proxy"), (307, "Temporary Redirect"),
    (308, "Permanent Redirect"),
    (400, "Bad Request"), (401, "Unauthorized"), (402, "Payment Required"), (403, "Forbidden"),
    (404, "Not Found"), (405, "Method Not Allowed"), (406, "Not Acceptable"),
    (407, "Proxy Authentication Required"), (408, "Request Timeout"), (409, "Conflict"),
    (410, "Gone"), (411, "Length Required"), (412, "Precondition Failed"),
    (413, "Request Entity Too Large"), (414, "Request URI Too Long"),
    (415, "Unsupported Media Type"), (416, "Requested Range Not Satisfiable"),
    (417, "Expectation Failed"), (418, "I\x27m a teapot"), (421, "Misdirected Request"),
    (422, "Unprocessable Entity"), (423, "Locked"), (424, "Failed Dependency"),
    (425, "Too Early"), (426, "Upgrade Required"), (428, "Precondition Required"),
    (429, "Too Many Requests"), (431, "Request Header Fields Too Large"),
    (451, "Unavailable For Legal Reasons"),
    (500, "Internal Server Error"), (501, "Not Implemented"), (502, "Bad Gateway"),
    (503, "Service Unavailable"), (504, "Gateway Timeout"), (505, "HTTP Version Not Supported"),
    (506, "Variant Also Negotiates"), (507, "Insufficient Storage"), (508, "Loop Detected"),
    (510, "Not Extended"), (511, "Network Authentication Required") ]

/-- Go `http.StatusText(code)`: the phrase, or the empty string for an unknown
code. -/
def StatusText (code : Int) : String :=
  (statusText.lookup code).getD ""

/-! ## `sjson.SetBytes` over the JSON value a text denotes -/

/-- JSON values that `TransformEntry` writes: numbers, strings and objects with
their members in order. -/
inductive Json where
  | num (f : Float64)
  | str (s : String)
  | obj (members : List (String × Json))

/-- A JSON text held in a `[]byte`; `none` is the empty slice. -/
abbrev Document := Option Json

/-- Function `isSimpleChar` of sjson. -/
def isSimpleChar (ch : Char) : Bool :=
  !(ch = '|' || ch = '#' || ch = '@' || ch = '*' || ch = '?')

/-- Path splitting of sjson (`parsePath`, iterated): the path is cut at every
unescaped dot, a backslash takes the next character literally, and an
unescaped `| # @ * ?` makes the path complex (`none`).  The second argument
is the current part, reversed. -/
def parsePath : List Char → List Char → Option (List String)
  | [], part => some [String.mk part.reverse]
  | '\\' :: [], part => some [String.mk part.reverse]
  | '\\' :: c :: rest, part => parsePath rest (c :: part)
  | '.' :: rest, part => (parsePath rest []).map (fun ks => String.mk part.reverse :: ks)
  | c :: rest, part => if isSimpleChar c then parsePath rest (c :: part) else none

/-- Keys that sjson treats as plain object keys wherever they occur: not
numeric (`atoui` fails: some character is not a digit) and without the
leading colon that forces a key. -/
def plainKey (k : String) : Bool :=
  k.data.any (fun c => !(decide ('0' ≤ c) && decide (c ≤ '9'))) && k.data.head? != some ':'

/-- Replace the value of the first member named `k`. -/
def replaceMember (k : String) (v : Json) : List (String × Json) → List (String × Json)
  | [] => []
  | (k', v') :: ms => if k' = k then (k, v) :: ms else (k', v') :: replaceMember k v ms

/-- Function `appendRawPaths` of sjson for plain keys: walk the keys, replacing
the value found at the end of the path, or building the missing objects and
appending the new member after the existing ones. -/
def setKeys : List String → Document → Json → Except Error Json
  | [], _, v => .ok v
  | k :: ks, none, v =>
    match setKeys ks none v with
    | .ok inner => .ok (.obj [(k, inner)])
    | .error e => .error e
  | k :: ks, some (.obj ms), v =>
    match ms.lookup k with
    | some old =>
      match setKeys ks (some old) v with
      | .ok inner => .ok (.obj (replaceMember k inner ms))
      | .error e => .error e
    | none =>
      match setKeys ks none v with
      | .ok inner => .ok (.obj (ms ++ [(k, inner)]))
      | .error e => .error e
  | _ :: _, some _, _ => .error "json must be an object or array"

/-- Go `sjson.SetBytes(json, path, value)` for object paths; as in sjson, the
input text is returned unchanged together with the error.  Complex paths and
array (numeric) keys are outside the fragment modelled and reported as
errors. -/
def SetBytes (json : Document) (path : String) (value : Json) : Document × Option Error :=
  if path = "" then (json, some "path cannot be empty")
  else
    match parsePath path.data [] with
    | none => (json, some "complex path")
    | some keys =>
      if keys.all plainKey then
        match setKeys keys json value with
        | .ok j => (some j, none)
        | .error e => (json, some e)
      else (json, some "array path")

/-- Value at a sequence of object keys, as `gjson` reads it back. -/
def Json.at : List String → Json → Option Json
  | [], j => some j
  | k :: ks, .obj ms =>
    match ms.lookup k with
    | some v => Json.at ks v
    | none => none
  | _ :: _, _ => none

/-- Value of a document at a sequence of object keys. -/
def Document.at (d : Document) (ks : List String) : Option Json :=
  d.bind (Json.at ks)

/-! ## Filter, transformer and writer (`logservice.go`) -/

/-- The type of `gjson.GetBytes`: the value a raw record holds at a path. -/
abbrev Getter := Bytes → String → Result

/-- Method `Service.IsValidEntry`. -/
def IsValidEntry {I : Type} (GetBytes : Getter) (s : Service I) (b : Bytes) : Bool :=
  let result := (GetBytes b "source").String
  let index := SearchStrings s.validSource result
  if h : index < s.validSource.length then s.validSource[index] = result else false

/-- The loop `for _, key := range keys` of `TransformEntry`: copy the string
value of every key, returning at the first failing write. -/
def copyKeys (GetBytes : Getter) (input : Bytes) : List String → Document → Document × Option Error
  | [], output => (output, none)
  | key :: keys, output =>
    match SetBytes output key (.str (GetBytes input key).String) with
    | (output, some err) => (output, some err)
    | (output, none) => copyKeys GetBytes input keys output

/-- Method `Service.TransformEntry`. -/
def TransformEntry {I : Type} (GetBytes : Getter) (_s : Service I) (input : Bytes) :
    Document × Option Error :=
  match SetBytes none "\\@timestamp" (.num (GetBytes input "timestamp").Num) with
  | (output, some err) => (output, some err)
  | (output, none) =>
    let source := (GetBytes input "source").String
    let output := (SetBytes output "source" (.str source)).1
    let output := (SetBytes output "event.dataset" (.str "vercel")).1
    let output := (SetBytes output "data_stream.type" (.str "logs")).1
    let keys :=
      if source = "build" then ["buildId", "deploymentId", "entrypoint", "message", "projectId"]
      else if source = "lambda" then ["deploymentId", "path", "projectId"]
      else []
    match copyKeys GetBytes input keys output with
    | (output, some err) => (output, some err)
    | (output, none) =>
      if source = "lambda" then
        let message :=
          "[" ++ (GetBytes input "proxy.statusCode").String ++ " "
            ++ StatusText (GetBytes input "proxy.statusCode").Int ++ "] "
            ++ (GetBytes input "proxy.method").String ++ " "
            ++ (GetBytes input "proxy.path").String ++ " "
            ++ (GetBytes input "message").String
        match SetBytes output "message" (.str message) with
        | (output, some err) => (output, some err)
        | (output, none) =>
          match SetBytes output "http.request.method"
              (.str (GetBytes input "proxy.method").String) with
          | (output, some err) => (output, some err)
          | (output, none) =>
            match SetBytes output "url.path" (.str (GetBytes input "proxy.path").String) with
            | (output, some err) => (output, some err)
            | (output, none) =>
              SetBytes output "http.response.status_code"
                (.str (GetBytes input "proxy.statusCode").String)
      else (output, none)

/-- The fields of `esutil.BulkIndexerItem` that `Write` sets.  The `OnFailure`
callback is invoked by a worker goroutine of the indexer after a flush, not by
`Add`; it is outside this sequential model. -/
structure BulkIndexerItem where
  Action : String
  Body : Document

/-- The type of `BulkIndexer.Add`: the error it returns and the indexer
afterwards. -/
abbrev Adder (I : Type) := I → BulkIndexerItem → Option Error × I

/-- Method `Service.Write`: the pair `(int, error)` it returns and the service
with the indexer as the call leaves it. -/
def Write {I : Type} (GetBytes : Getter) (Add : Adder I) (s : Service I) (b : Bytes) :
    (Nat × Option Error) × Service I :=
  if !IsValidEntry GetBytes s b then ((0, none), s)
  else
    match TransformEntry GetBytes s b with
    | (_, some indexerErr) => ((0, some indexerErr), s)
    | (entry, none) =>
      match Add s.indexer { Action := "create", Body := entry } with
      | (some err, indexer) => ((0, some err), { s with indexer := indexer })
      | (none, indexer) => ((b.length, none), { s with indexer := indexer })

/-! ## HTTP handlers (`handlers.go`) -/

/-- Go `bufio.MaxScanTokenSize`, the buffer limit of a `bufio.Scanner`. -/
def MaxScanTokenSize : Nat := 64 * 1024

/-- Function `dropCR` of `bufio`: drop one trailing carriage return. -/
def dropCR (data : Bytes) : Bytes :=
  if data.getLast? = some 13 then data.dropLast else data

/-- The tokens a `bufio.Scanner` with the default split function `ScanLines`
yields over a body, and its `Err()` afterwards.  A line ends at `\n`; a final
line without one is a token when it is not empty; a line that does not fit
the buffer (`MaxScanTokenSize` bytes before its newline) stops the scanner with
`bufio.ErrTooLong`.  The second argument is the current line, reversed. -/
def scanLines : Bytes → Bytes → List Bytes × Option Error
  | [], line =>
    if line.isEmpty then ([], none)
    else if MaxScanTokenSize ≤ line.length then ([], some "bufio.Scanner: token too long")
    else ([dropCR line.reverse], none)
  | c :: rest, line =>
    if c = 10 then
      if MaxScanTokenSize ≤ line.length then ([], some "bufio.Scanner: token too long")
      else ((dropCR line.reverse) :: (scanLines rest []).1, (scanLines rest []).2)
    else scanLines rest (c :: line)

/-- The parts of `http.Request` the handlers read. -/
structure Request where
  Method : String
  RequestURI : String
  Body : Bytes

/-- An `http.ResponseWriter` as `httptest.ResponseRecorder` records it. -/
structure ResponseWriter where
  Code : Nat
  Body : String

/-- A fresh recorder: status 200, empty body. -/
def NewRecorder : ResponseWriter :=
  { Code := 200, Body := "" }

/-- Go `fmt.Fprintln(w, msg)`. -/
def Fprintln (w : ResponseWriter) (msg : String) : ResponseWriter :=
  { w with Body := w.Body ++ msg ++ "\n" }

/-- Function `handleError`. -/
def handleError (msg : String) (status : Nat) (w : ResponseWriter) (r : Request) :
    ResponseWriter :=
  let w := { w with Code := status }
  if r.Method ≠ "HEAD" then Fprintln w msg else w

/-- Function `handlePing`. -/
def handlePing (w : ResponseWriter) (_r : Request) : ResponseWriter :=
  Fprintln w "OK"

/-- The loop `for scanner.Scan()` of `handleIngest`: write every token until a
`Write` fails. -/
def ingestLoop {I : Type} (GetBytes : Getter) (Add : Adder I) :
    List Bytes → Service I → Option Error × Service I
  | [], svc => (none, svc)
  | token :: rest, svc =>
    match Write GetBytes Add svc token with
    | ((_, some err), svc) => (some err, svc)
    | ((_, none), svc) => ingestLoop GetBytes Add rest svc

/-- Function `handleIngest`. -/
def handleIngest {I : Type} (GetBytes : Getter) (Add : Adder I) (svc : Service I)
    (w : ResponseWriter) (r : Request) : ResponseWriter × Service I :=
  let scanner := scanLines r.Body []
  match ingestLoop GetBytes Add scanner.1 svc with
  | (some _, svc) => (handleError "\x7b\"error\":true\x7d" 500 w r, svc)
  | (none, svc) =>
    match scanner.2 with
    | some _ => (handleError "\x7b\"error\":true\x7d" 500 w r, svc)
    | none => (Fprintln w "\x7b\"error\":false\x7d", svc)

/-- Method `Service.ServeHTTP`. -/
def ServeHTTP {I : Type} (GetBytes : Getter) (Add : Adder I) (s : Service I)
    (w : ResponseWriter) (r : Request) : ResponseWriter × Service I :=
  if r.RequestURI ≠ "/" then (handleError "Not found" 404 w r, s)
  else if r.Method = "HEAD" ∨ r.Method = "GET" then (handlePing w r, s)
  else if r.Method = "POST" then handleIngest GetBytes Add s w r
  else (handleError "Unsupported method" 405 w r, s)

/-! ## Closed forms used to state the results -/

/-- The four members every document starts with. -/
def headMembers (GetBytes : Getter) (input : Bytes) : List (String × Json) :=
  [ ("@timestamp", .num (GetBytes input "timestamp").Num),
    ("source", .str (GetBytes input "source").String),
    ("event", .obj [("dataset", .str "vercel")]),
    ("data_stream", .obj [("type", .str "logs")]) ]

/-- The synthesized message of a lambda record. -/
def lambdaMessage (GetBytes : Getter) (input : Bytes) : String :=
  "[" ++ (GetBytes input "proxy.statusCode").String ++ " "
    ++ StatusText (GetBytes input "proxy.statusCode").Int ++ "] "
    ++ (GetBytes input "proxy.method").String ++ " "
    ++ (GetBytes input "proxy.path").String ++ " "
    ++ (GetBytes input "message").String

/-- The documents of the tokens the filter admits, in token order. -/
def admittedDocuments {I : Type} (GetBytes : Getter) (svc : Service I) (tokens : List Bytes) :
    List Document :=
  (tokens.filter (fun token => IsValidEntry GetBytes svc token)).map
    (fun token => (TransformEntry GetBytes svc token).1)

/-- The indexer after `Add` has been called with action "create" on each
document in turn. -/
def addAll {I : Type} (Add : Adder I) (indexer : I) (docs : List Document) : I :=
  docs.foldl (fun ix doc => (Add ix { Action := "create", Body := doc }).2) indexer

/-! ## Sample data

Records, an indexer and Elasticsearch constructors to run the definitions on. -/

/-- ASCII text as a byte slice. -/
def ascii (s : String) : Bytes :=
  s.data.map (fun c => c.toNat.toUInt8)

/-- A `Result` of type `String`. -/
def strResult (s : String) : Result :=
  { Typ := .String, Raw := "\"" ++ s ++ "\"", Str := s, Num := Float64.zero }

/-- A `Result` of type `Number` for a small non-negative integer literal. -/
def natResult (n : Nat) : Result :=
  { Typ := .Number, Raw := toString n, Str := "",
    Num := { format := toString n, safeInt := some n, toInt64 := n } }

/-- A record without a source tag. -/
def emptyRecord : Bytes := ascii "\x7b\x7d"

/-- A build record that lacks `deploymentId`, `entrypoint` and `projectId`. -/
def buildRecord : Bytes :=
  ascii "\x7b\"source\":\"build\",\"timestamp\":17,\"buildId\":\"b1\",\"message\":\"hi\"\x7d"

/-- A lambda record with status 404, method GET, path /x and message m. -/
def lambdaRecord : Bytes :=
  ascii ("\x7b\"source\":\"lambda\",\"timestamp\":18,\"message\":\"m\","
    ++ "\"proxy\":\x7b\"statusCode\":404,\"method\":\"GET\",\"path\":\"/x\"\x7d\x7d")

/-- A record of a source outside the default allow-list. -/
def staticRecord : Bytes :=
  ascii "\x7b\"source\":\"static\",\"timestamp\":19,\"message\":\"s\"\x7d"

/-- What `gjson.GetBytes` returns on the sample records, path by path; every
other path finds nothing. -/
def sampleFields : List (Bytes × List (String × Result)) :=
  [ (emptyRecord, []),
    (buildRecord,
      [("source", strResult "build"), ("timestamp", natResult 17),
       ("buildId", strResult "b1"), ("message", strResult "hi")]),
    (lambdaRecord,
      [("source", strResult "lambda"), ("timestamp", natResult 18),
       ("message", strResult "m"), ("proxy.statusCode", natResult 404),
       ("proxy.method", strResult "GET"), ("proxy.path", strResult "/x")]),
    (staticRecord,
      [("source", strResult "static"), ("timestamp", natResult 19),
       ("message", strResult "s")]) ]

/-- The `gjson.GetBytes` of the sample records. -/
def sampleGet : Getter := fun b path =>
  match sampleFields.lookup b with
  | some fields => (fields.lookup path).getD Result.zero
  | none => Result.zero

/-- An indexer that records the items added to it, oldest first, and accepts
every item. -/
def recordingAdd : Adder (List BulkIndexerItem) := fun items item =>
  (none, items ++ [item])

/-- An indexer that refuses every item. -/
def refusingAdd : Adder (List BulkIndexerItem) := fun items _ =>
  (some "context canceled", items)

/-- Constructors that succeed on every configuration, as
`elasticsearch.NewClient` does for a well-formed address whether or not an API
key is given; the indexer starts with nothing added. -/
def sampleElastic : Elastic ClientConfig (List BulkIndexerItem) :=
  { NewClient := fun c => .ok c
    NewBulkIndexer := fun _ => .ok [] }

/-- A configuration with the default allow-list. -/
def sampleConfig : Config :=
  { ValidSource := []
    IndexName := "logservice-logs"
    FlushInterval := 5000000000
    FlushBytes := 1000000
    ElasticsearchURL := "http://localhost:9200"
    ElasticsearchAPIKey := "key" }

/-- The service `New` builds from `sampleConfig`. -/
def sampleService : Service (List BulkIndexerItem) :=
  { indexer := [], validSource := ["build", "lambda"] }

/-- A body of four lines: three records of allowed sources and one of another
source; the last line has no newline. -/
def sampleBody : Bytes :=
  buildRecord ++ 10 :: (staticRecord ++ 10 :: (lambdaRecord ++ 10 :: buildRecord))

/-- A body whose first line has 65536 bytes, followed by a build record. -/
def longLineBody : Bytes :=
  List.replicate 65536 97 ++ 10 :: buildRecord

/-- A POST request to the root with the given body. -/
def post (body : Bytes) : Request :=
  { Method := "POST", RequestURI := "/", Body := body }

/-! ## Theorems -/

/-! ### String order, sorting and binary search -/

theorem ltChars_iff (a b : List Char) : ltChars a b = true ↔ a < b := by
  induction a generalizing b with
  | nil =>
    cases b with
    | nil => simp [ltChars]
    | cons y ys => simp only [ltChars, true_iff]; exact List.nil_lt_cons y ys
  | cons x xs ih =>
    cases b with
    | nil => simp [ltChars]
    | cons y ys =>
      simp only [ltChars]
      split_ifs with h1 h2
      · simp only [true_iff]; exact List.Lex.rel h1
      · simp only [Bool.false_eq_true, false_iff]
        intro h
        cases h with
        | rel h => exact h1 h
        | cons h => exact lt_irrefl _ h2
      · have : x = y := le_antisymm (not_lt.mp h2) (not_lt.mp h1)
        subst this
        rw [ih]
        exact (List.Lex.cons_iff).symm

/-- The executable comparison is the order of `String`. -/
theorem strLE_iff (a b : String) : strLE a b = true ↔ a ≤ b := by
  rw [String.le_iff_toList_le, ← not_lt, ← ltChars_iff]
  simp [strLE, String.toList]

theorem strLE_total : IsTotal String (fun x y => strLE x y = true) :=
  ⟨fun a b => by simp only [strLE_iff]; exact le_total a b⟩

theorem strLE_trans : IsTrans String (fun x y => strLE x y = true) :=
  ⟨fun a b c => by simp only [strLE_iff]; exact le_trans⟩

theorem strLE_antisymm : IsAntisymm String (fun x y => strLE x y = true) :=
  ⟨fun a b => by simp only [strLE_iff]; exact le_antisymm⟩

theorem sortStrings_sorted (a : List String) :
    List.Sorted (fun x y => strLE x y = true) (sortStrings a) :=
  haveI := strLE_total
  haveI := strLE_trans
  List.sorted_insertionSort _ a

theorem sortStrings_perm (a : List String) : (sortStrings a).Perm a :=
  List.perm_insertionSort _ a

theorem mem_sortStrings (a : List String) (x : String) : x ∈ sortStrings a ↔ x ∈ a :=
  (sortStrings_perm a).mem_iff

/-- The result of `sort.Strings` does not depend on the algorithm: a sorted
rearrangement of `a` is `sortStrings a`. -/
theorem sortStrings_unique (a l : List String) (hperm : l.Perm a)
    (hsorted : List.Sorted (fun x y => strLE x y = true) l) : l = sortStrings a :=
  haveI := strLE_antisymm
  List.eq_of_perm_of_sorted (hperm.trans (sortStrings_perm a).symm) hsorted
    (sortStrings_sorted a)

/-- Invariant of the loop of `sort.Search` for a predicate that, once true,
stays true below `n`: the bounds enclose the first index where it holds. -/
theorem searchLoop_spec (f : Nat → Bool) (n : Nat)
    (mono : ∀ i j, i ≤ j → j < n → f i = true → f j = true) :
    ∀ fuel i j, i ≤ j → j ≤ n → j - i ≤ fuel →
      (∀ k, k < i → f k = false) → (∀ k, j ≤ k → k < n → f k = true) →
      i ≤ searchLoop f fuel i j ∧ searchLoop f fuel i j ≤ j ∧
      (∀ k, k < searchLoop f fuel i j → f k = false) ∧
      (∀ k, searchLoop f fuel i j ≤ k → k < n → f k = true) := by
  intro fuel
  induction fuel with
  | zero =>
    intro i j hij hjn hfuel hlo hhi
    have : i = j := by omega
    subst this
    simp only [searchLoop]
    exact ⟨le_refl _, le_refl _, hlo, hhi⟩
  | succ fuel ih =>
    intro i j hij hjn hfuel hlo hhi
    simp only [searchLoop]
    by_cases hlt : i < j
    · simp only [hlt, if_true]
      have hh1 : i ≤ (i + j) / 2 := by omega
      have hh2 : (i + j) / 2 < j := by omega
      cases hf : f ((i + j) / 2) with
      | false =>
        simp only [Bool.not_false, if_true]
        have := ih ((i + j) / 2 + 1) j (by omega) hjn (by omega)
          (by
            intro k hk
            by_contra hc
            have hk1 : f k = true := by simpa using hc
            have := mono k ((i + j) / 2) (by omega) (by omega) hk1
            rw [hf] at this; exact Bool.noConfusion this)
          hhi
        exact ⟨by omega, this.2.1, this.2.2⟩
      | true =>
        simp only [Bool.not_true, Bool.false_eq_true, if_false]
        have := ih i ((i + j) / 2) hh1 (by omega) (by omega) hlo
          (by
            intro k hk hkn
            exact mono _ k hk hkn hf)
        exact ⟨this.1, by omega, this.2.2⟩
    · have : i = j := by omega
      subst this
      simp only [lt_irrefl, if_false]
      exact ⟨le_refl _, le_refl _, hlo, hhi⟩

/-- On a sorted slice `sort.SearchStrings` returns the first index whose
element is `>= x`, or the length. -/
theorem SearchStrings_spec (a : List String) (x : String)
    (hs : List.Sorted (fun x y => strLE x y = true) a) :
    SearchStrings a x ≤ a.length ∧
    (∀ k, k < SearchStrings a x → strLE x (a.getD k "") = false) ∧
    (∀ k, SearchStrings a x ≤ k → k < a.length → strLE x (a.getD k "") = true) := by
  have mono : ∀ i j, i ≤ j → j < a.length →
      strLE x (a.getD i "") = true → strLE x (a.getD j "") = true := by
    intro i j hij hj hi
    rcases Nat.eq_or_lt_of_le hij with h | h
    · subst h; exact hi
    · have hij2 : strLE (a.getD i "") (a.getD j "") = true := by
        have := (List.pairwise_iff_getElem.mp hs) i j (by omega) hj h
        simpa [List.getD_eq_getElem?_getD, List.getElem?_eq_getElem, hj,
          (show i < a.length by omega)] using this
      exact (strLE_iff _ _).mpr (le_trans ((strLE_iff _ _).mp hi) ((strLE_iff _ _).mp hij2))
  have := searchLoop_spec (fun i => strLE x (a.getD i "")) a.length mono a.length 0 a.length
    (Nat.zero_le _) (le_refl _) (by omega) (by intro k hk; omega) (by intro k hk hkn; omega)
  exact ⟨this.2.1, this.2.2.1, this.2.2.2⟩

/-- Over a sorted allow-list `IsValidEntry` decides membership of the source
tag. -/
theorem IsValidEntry_iff_mem {I : Type} (G : Getter) (s : Service I) (b : Bytes)
    (hs : List.Sorted (fun x y => strLE x y = true) s.validSource) :
    IsValidEntry G s b = true ↔ (G b "source").String ∈ s.validSource := by
  obtain ⟨_, hlo, hhi⟩ := SearchStrings_spec s.validSource (G b "source").String hs
  simp only [IsValidEntry]
  constructor
  · intro h
    split_ifs at h with hlt
    have heq := of_decide_eq_true h
    rw [← heq]
    exact List.getElem_mem hlt
  · intro hmem
    obtain ⟨k, hk, hkx⟩ := List.getElem_of_mem hmem
    have hgetk : s.validSource.getD k "" = (G b "source").String := by
      simp [List.getD_eq_getElem?_getD, List.getElem?_eq_getElem, hk, hkx]
    have hrk : SearchStrings s.validSource (G b "source").String ≤ k := by
      by_contra hc
      have := hlo k (by omega)
      rw [hgetk] at this
      have hrefl : strLE (G b "source").String (G b "source").String = true :=
        (strLE_iff _ _).mpr (le_refl _)
      rw [hrefl] at this
      exact Bool.noConfusion this
    have hlt : SearchStrings s.validSource (G b "source").String < s.validSource.length := by
      omega
    rw [dif_pos hlt]
    apply decide_eq_true
    have h1 := hhi _ (le_refl _) hlt
    have hget : s.validSource.getD (SearchStrings s.validSource (G b "source").String) ""
        = s.validSource[SearchStrings s.validSource (G b "source").String] := by
      simp [List.getD_eq_getElem?_getD, List.getElem?_eq_getElem, hlt]
    rw [hget] at h1
    have h2 : strLE s.validSource[SearchStrings s.validSource (G b "source").String]
        (G b "source").String = true := by
      rcases Nat.eq_or_lt_of_le hrk with h | h
      · have : s.validSource[SearchStrings s.validSource (G b "source").String]
            = s.validSource[k] := by simp only [h]
        rw [this, hkx]
        exact (strLE_iff _ _).mpr (le_refl _)
      · have := (List.pairwise_iff_getElem.mp hs) _ k hlt hk h
        rw [hkx] at this
        exact this
    exact le_antisymm ((strLE_iff _ _).mp h2) ((strLE_iff _ _).mp h1)

/-- The allow-list of a service that `New` returns is the sorted allow-list of
the configuration. -/
theorem New_validSource {C I : Type} (es : Elastic C I) (cfg : Config) (svc : Service I)
    (h : New es cfg = .ok svc) : svc.validSource = sortStrings (allowList cfg) := by
  unfold New at h
  split_ifs at h
  split at h
  · exact absurd h (by simp)
  · split at h
    · exact absurd h (by simp)
    · injection h with h
      rw [← h]

theorem allowList_eq (cfg : Config) :
    allowList cfg = if cfg.ValidSource = [] then ["build", "lambda"] else cfg.ValidSource := by
  unfold allowList
  cases cfg.ValidSource <;> simp

theorem New_sampleConfig : New sampleElastic sampleConfig = .ok sampleService := by
  rfl

/-- The allow-list of a service `New` returns is sorted, and its filter decides
membership in the configured allow-list. -/
theorem New_filter {C I : Type} (es : Elastic C I) (cfg : Config)
    (svc : Service I) (hNew : New es cfg = .ok svc) (G : Getter) (b : Bytes) :
    List.Pairwise (fun x y => strLE x y = true) svc.validSource ∧
    (IsValidEntry G svc b = true ↔
      (G b "source").String ∈
        (if cfg.ValidSource = [] then ["build", "lambda"] else cfg.ValidSource)) := by
  have hv := New_validSource es cfg svc hNew
  have hs : List.Sorted (fun x y => strLE x y = true) svc.validSource := by
    rw [hv]; exact sortStrings_sorted _
  refine ⟨hs, ?_⟩
  rw [IsValidEntry_iff_mem G svc b hs, hv, mem_sortStrings, allowList_eq]

/-- C1. For every service returned by `New` the allow-list is sorted, and
`IsValidEntry(b)` is true exactly when the string value of the "source" field
of `b` is an element of the configured allow-list (`cfg.ValidSource`, or
"build" and "lambda" when that list is empty). -/
theorem IsValidEntry_iff_source_allowed {C I : Type} (es : Elastic C I) (cfg : Config)
    (svc : Service I) (hNew : New es cfg = .ok svc) (GetBytes : Getter) (b : Bytes) :
    List.Pairwise (fun x y => strLE x y = true) svc.validSource ∧
    (IsValidEntry GetBytes svc b = true ↔
      (GetBytes b "source").String ∈
        (if cfg.ValidSource = [] then ["build", "lambda"] else cfg.ValidSource)) :=
  New_filter es cfg svc hNew GetBytes b

/-- C1 at the sample configuration: the build record is admitted, its source
being in the default allow-list. -/
theorem IsValidEntry_iff_source_allowed_witness :
    New sampleElastic sampleConfig = .ok sampleService ∧
    List.Pairwise (fun x y => strLE x y = true) sampleService.validSource ∧
    (IsValidEntry sampleGet sampleService buildRecord = true ↔
      (sampleGet buildRecord "source").String ∈
        (if sampleConfig.ValidSource = [] then ["build", "lambda"]
          else sampleConfig.ValidSource)) :=
  ⟨New_sampleConfig,
    IsValidEntry_iff_source_allowed sampleElastic sampleConfig sampleService New_sampleConfig
      sampleGet buildRecord⟩

/-! ### The transformer -/

/-- The document of a build record, member by member. -/
theorem TransformEntry_build {I : Type} (G : Getter) (s : Service I) (b : Bytes)
    (h : (G b "source").String = "build") :
    TransformEntry G s b =
      (some (.obj (headMembers G b ++
        [ ("buildId", .str (G b "buildId").String),
          ("deploymentId", .str (G b "deploymentId").String),
          ("entrypoint", .str (G b "entrypoint").String),
          ("message", .str (G b "message").String),
          ("projectId", .str (G b "projectId").String) ])), none) := by
  simp [TransformEntry, SetBytes, parsePath, plainKey, setKeys, h, copyKeys, isSimpleChar,
    List.lookup, headMembers]

/-- The document of a lambda record, member by member. -/
theorem TransformEntry_lambda {I : Type} (G : Getter) (s : Service I) (b : Bytes)
    (h : (G b "source").String = "lambda") :
    TransformEntry G s b =
      (some (.obj (headMembers G b ++
        [ ("deploymentId", .str (G b "deploymentId").String),
          ("path", .str (G b "path").String),
          ("projectId", .str (G b "projectId").String),
          ("message", .str (lambdaMessage G b)),
          ("http", .obj
            [ ("request", .obj [("method", .str (G b "proxy.method").String)]),
              ("response", .obj [("status_code", .str (G b "proxy.statusCode").String)]) ]),
          ("url", .obj [("path", .str (G b "proxy.path").String)]) ])), none) := by
  simp [TransformEntry, SetBytes, parsePath, plainKey, setKeys, h, copyKeys, isSimpleChar,
    List.lookup, headMembers, lambdaMessage, replaceMember]

/-- The document of a record of any other source: the four head members. -/
theorem TransformEntry_other {I : Type} (G : Getter) (s : Service I) (b : Bytes)
    (h1 : (G b "source").String ≠ "build") (h2 : (G b "source").String ≠ "lambda") :
    TransformEntry G s b = (some (.obj (headMembers G b)), none) := by
  simp [TransformEntry, SetBytes, parsePath, plainKey, setKeys, h1, h2, copyKeys, isSimpleChar,
    List.lookup, headMembers]

/-- A result that does not exist has the empty string value. -/
theorem Result.String_of_not_Exists (t : Result) (h : t.Exists = false) : t.String = "" := by
  unfold Result.Exists at h
  have hT : t.Typ = .Null := by
    cases hTyp : t.Typ <;> first | rfl | simp [hTyp] at h
  simp [Result.String, hT]

/-- C3. For every record the document returned by `TransformEntry` holds the
four constant and classification fields: "@timestamp" is the numeric timestamp
of the record, "source" its source tag, "event.dataset" is "vercel" and
"data_stream.type" is "logs"; no later write removes or overwrites them. -/
theorem TransformEntry_head_fields {I : Type} (GetBytes : Getter) (s : Service I)
    (input : Bytes) :
    (TransformEntry GetBytes s input).1.at ["@timestamp"]
        = some (.num (GetBytes input "timestamp").Num) ∧
    (TransformEntry GetBytes s input).1.at ["source"]
        = some (.str (GetBytes input "source").String) ∧
    (TransformEntry GetBytes s input).1.at ["event", "dataset"] = some (.str "vercel") ∧
    (TransformEntry GetBytes s input).1.at ["data_stream", "type"] = some (.str "logs") := by
  by_cases h1 : (GetBytes input "source").String = "build"
  · rw [TransformEntry_build GetBytes s input h1]
    simp [Document.at, Json.at, List.lookup, headMembers]
  · by_cases h2 : (GetBytes input "source").String = "lambda"
    · rw [TransformEntry_lambda GetBytes s input h2]
      simp [Document.at, Json.at, List.lookup, headMembers]
    · rw [TransformEntry_other GetBytes s input h1 h2]
      simp [Document.at, Json.at, List.lookup, headMembers]

/-- C4. For every record with source "lambda" the "message" field of the
document is "[" + s + " " + StatusText(s) + "] " + m + " " + p + " " + t, for
the proxy status code s, proxy method m, proxy path p and original message t. -/
theorem TransformEntry_lambda_message {I : Type} (GetBytes : Getter) (s : Service I)
    (input : Bytes) (hsource : (GetBytes input "source").String = "lambda") :
    (TransformEntry GetBytes s input).1.at ["message"] =
      some (.str ("[" ++ (GetBytes input "proxy.statusCode").String ++ " "
        ++ StatusText (GetBytes input "proxy.statusCode").Int ++ "] "
        ++ (GetBytes input "proxy.method").String ++ " "
        ++ (GetBytes input "proxy.path").String ++ " "
        ++ (GetBytes input "message").String)) := by
  rw [TransformEntry_lambda GetBytes s input hsource]
  simp [Document.at, Json.at, List.lookup, headMembers, lambdaMessage]

/-- C4 at the sample lambda record: status 404, method GET, path /x and message
m give "[404 Not Found] GET /x m". -/
theorem TransformEntry_lambda_message_witness :
    (sampleGet lambdaRecord "source").String = "lambda" ∧
    (TransformEntry sampleGet sampleService lambdaRecord).1.at ["message"] =
      some (.str "[404 Not Found] GET /x m") :=
  ⟨by decide,
    (TransformEntry_lambda_message sampleGet sampleService lambdaRecord (by decide)).trans
      (congrArg (fun m => some (Json.str m)) (by decide))⟩

/-- C5. For a record with source "build" each of buildId, deploymentId,
entrypoint, message and projectId, and for a record with source "lambda" each
of deploymentId, path and projectId, is present in the document with the
string value of the same input field, which is the empty string when the
input lacks the field. -/
theorem TransformEntry_copied_keys {I : Type} (GetBytes : Getter) (s : Service I)
    (input : Bytes) (key : String)
    (hkey : ((GetBytes input "source").String = "build" ∧
        key ∈ ["buildId", "deploymentId", "entrypoint", "message", "projectId"]) ∨
      ((GetBytes input "source").String = "lambda" ∧
        key ∈ ["deploymentId", "path", "projectId"])) :
    (TransformEntry GetBytes s input).1.at [key]
        = some (.str (GetBytes input key).String) ∧
    ((GetBytes input key).Exists = false →
      (TransformEntry GetBytes s input).1.at [key] = some (.str "")) := by
  have main : (TransformEntry GetBytes s input).1.at [key]
      = some (.str (GetBytes input key).String) := by
    rcases hkey with ⟨h, hk⟩ | ⟨h, hk⟩
    · rw [TransformEntry_build GetBytes s input h]
      simp only [List.mem_cons, List.mem_singleton, List.not_mem_nil, or_false] at hk
      rcases hk with rfl | rfl | rfl | rfl | rfl <;>
        simp [Document.at, Json.at, List.lookup, headMembers]
    · rw [TransformEntry_lambda GetBytes s input h]
      simp only [List.mem_cons, List.mem_singleton, List.not_mem_nil, or_false] at hk
      rcases hk with rfl | rfl | rfl <;>
        simp [Document.at, Json.at, List.lookup, headMembers]
  refine ⟨main, fun hno => ?_⟩
  rw [main, Result.String_of_not_Exists _ hno]

/-- C5 at the sample build record, which has no deploymentId: the key is
present with the empty string. -/
theorem TransformEntry_copied_keys_witness :
    (((sampleGet buildRecord "source").String = "build" ∧
        "deploymentId" ∈ ["buildId", "deploymentId", "entrypoint", "message", "projectId"]) ∨
      ((sampleGet buildRecord "source").String = "lambda" ∧
        "deploymentId" ∈ ["deploymentId", "path", "projectId"])) ∧
    (sampleGet buildRecord "deploymentId").Exists = false ∧
    (TransformEntry sampleGet sampleService buildRecord).1.at ["deploymentId"]
      = some (.str "") :=
  ⟨by decide, by decide,
    (TransformEntry_copied_keys sampleGet sampleService buildRecord "deploymentId"
      (by decide)).2 (by decide)⟩

/-- The transformer returns a document and no error. -/
theorem TransformEntry_ok {I : Type} (G : Getter) (s : Service I) (b : Bytes) :
    (TransformEntry G s b).2 = none ∧ (TransformEntry G s b).1.isSome = true := by
  by_cases h1 : (G b "source").String = "build"
  · rw [TransformEntry_build G s b h1]; exact ⟨rfl, rfl⟩
  · by_cases h2 : (G b "source").String = "lambda"
    · rw [TransformEntry_lambda G s b h2]; exact ⟨rfl, rfl⟩
    · rw [TransformEntry_other G s b h1 h2]; exact ⟨rfl, rfl⟩

/-- C6. `TransformEntry` returns a nil error together with a document for every
input record, whatever fields the record lacks. -/
theorem TransformEntry_no_error {I : Type} (GetBytes : Getter) (s : Service I)
    (input : Bytes) :
    (TransformEntry GetBytes s input).2 = none ∧
    (TransformEntry GetBytes s input).1.isSome = true :=
  TransformEntry_ok GetBytes s input

/-! ### The writer -/

/-- A service that only differs in its indexer filters the same way. -/
theorem IsValidEntry_indexer {I : Type} (G : Getter) (s : Service I) (indexer : I) (b : Bytes) :
    IsValidEntry G { s with indexer := indexer } b = IsValidEntry G s b := rfl

/-- The transformer does not read the service. -/
theorem TransformEntry_service {I : Type} (G : Getter) (s t : Service I) (b : Bytes) :
    TransformEntry G s b = TransformEntry G t b := rfl

/-- C2. For every record whose source tag is outside the (sorted) allow-list,
`Write` returns (0, nil) and leaves the service as it was: `Add` is not
called, whatever the indexer, so its state and counters are unchanged. -/
theorem Write_rejected {I : Type} (GetBytes : Getter) (Add : Adder I) (s : Service I)
    (b : Bytes) (hsorted : List.Pairwise (fun x y => strLE x y = true) s.validSource)
    (hout : (GetBytes b "source").String ∉ s.validSource) :
    Write GetBytes Add s b = ((0, none), s) := by
  have hv : IsValidEntry GetBytes s b = false := by
    cases hval : IsValidEntry GetBytes s b with
    | false => rfl
    | true => exact absurd ((IsValidEntry_iff_mem GetBytes s b hsorted).mp hval) hout
  simp [Write, hv]

/-- C2 at the sample service: the static record is dropped and the recording
indexer stays empty. -/
theorem Write_rejected_witness :
    List.Pairwise (fun x y => strLE x y = true) sampleService.validSource ∧
    (sampleGet staticRecord "source").String ∉ sampleService.validSource ∧
    Write sampleGet recordingAdd sampleService staticRecord = ((0, none), sampleService) :=
  ⟨by decide, by decide,
    Write_rejected sampleGet recordingAdd sampleService staticRecord (by decide) (by decide)⟩

/-- What `Write` does with an admitted record. -/
theorem Write_of_valid {I : Type} (G : Getter) (Add : Adder I) (s : Service I)
    (b : Bytes) (hvalid : IsValidEntry G s b = true) :
    Write G Add s b =
      match Add s.indexer { Action := "create", Body := (TransformEntry G s b).1 } with
      | (some e, indexer) => ((0, some e), { s with indexer := indexer })
      | (none, indexer) => ((b.length, none), { s with indexer := indexer }) := by
  have herr := (TransformEntry_ok G s b).1
  have hpair : TransformEntry G s b = ((TransformEntry G s b).1, none) := by
    rw [← herr]
  simp only [Write, hvalid, Bool.not_true, Bool.false_eq_true, if_false]
  rw [hpair]

/-- C10. For every record `b` admitted by `IsValidEntry`, `Write` calls `Add`
once, on the indexer of the service, with action "create" and the document
`TransformEntry(b)` as body; it returns (len(b), nil) when `Add` succeeds and
(0, e) when `Add` fails with `e`, and the indexer is as `Add` leaves it. -/
theorem Write_admitted {I : Type} (GetBytes : Getter) (Add : Adder I) (s : Service I)
    (b : Bytes) (hvalid : IsValidEntry GetBytes s b = true) :
    Write GetBytes Add s b =
      match Add s.indexer { Action := "create", Body := (TransformEntry GetBytes s b).1 } with
      | (some e, indexer) => ((0, some e), { s with indexer := indexer })
      | (none, indexer) => ((b.length, none), { s with indexer := indexer }) :=
  Write_of_valid GetBytes Add s b hvalid

/-- C10 at the sample build record: the recording indexer receives the one
item and `Write` returns the length of the record; the refusing indexer makes
`Write` return zero and its error. -/
theorem Write_admitted_witness :
    IsValidEntry sampleGet sampleService buildRecord = true ∧
    Write sampleGet recordingAdd sampleService buildRecord =
      ((buildRecord.length, none),
        { sampleService with
          indexer := [{ Action := "create",
                        Body := (TransformEntry sampleGet sampleService buildRecord).1 }] }) ∧
    Write sampleGet refusingAdd sampleService buildRecord =
      ((0, some "context canceled"), sampleService) :=
  ⟨by decide, Write_admitted sampleGet recordingAdd sampleService buildRecord (by decide),
    Write_admitted sampleGet refusingAdd sampleService buildRecord (by decide)⟩

/-! ### The absent source tag -/

/-- C7, as amended. For every service `New` returns whose allow-list does not
contain the empty string (the default list does not) and every record in
which gjson finds no "source" value, `IsValidEntry` returns false. -/
theorem IsValidEntry_absent_source {C I : Type} (es : Elastic C I) (cfg : Config)
    (svc : Service I) (hNew : New es cfg = .ok svc) (GetBytes : Getter) (b : Bytes)
    (hlist : "" ∉ (if cfg.ValidSource = [] then ["build", "lambda"] else cfg.ValidSource))
    (habsent : (GetBytes b "source").Exists = false) :
    IsValidEntry GetBytes svc b = false := by
  cases hval : IsValidEntry GetBytes svc b with
  | false => rfl
  | true =>
    have := (New_filter es cfg svc hNew GetBytes b).2.mp hval
    rw [Result.String_of_not_Exists _ habsent] at this
    exact absurd this hlist

/-- C7 as amended, at the sample service and the record without a source. -/
theorem IsValidEntry_absent_source_witness :
    New sampleElastic sampleConfig = .ok sampleService ∧
    "" ∉ (if sampleConfig.ValidSource = [] then ["build", "lambda"]
      else sampleConfig.ValidSource) ∧
    (sampleGet emptyRecord "source").Exists = false ∧
    IsValidEntry sampleGet sampleService emptyRecord = false :=
  ⟨New_sampleConfig, by decide, by decide,
    IsValidEntry_absent_source sampleElastic sampleConfig sampleService New_sampleConfig
      sampleGet emptyRecord (by decide) (by decide)⟩

/-- C7 fails as stated: configured with the allow-list [""], `New` returns a
service that admits the record without a source tag. -/
theorem IsValidEntry_absent_source_admitted :
    New sampleElastic { sampleConfig with ValidSource := [""] }
      = .ok { indexer := [], validSource := [""] } ∧
    (sampleGet emptyRecord "source").Exists = false ∧
    IsValidEntry sampleGet
      ({ indexer := [], validSource := [""] } : Service (List BulkIndexerItem))
      emptyRecord = true :=
  ⟨rfl, by decide, by decide⟩

/-! ### Required options -/

/-- C8, as amended. For every configuration in which the Elasticsearch URL or
the index name is empty, `New` returns an error and no service. -/
theorem New_missing_required {C I : Type} (es : Elastic C I) (cfg : Config)
    (hmissing : cfg.ElasticsearchURL = "" ∨ cfg.IndexName = "") :
    ∃ err, New es cfg = .error err := by
  unfold New
  by_cases hurl : cfg.ElasticsearchURL = ""
  · exact ⟨_, by rw [if_pos hurl]⟩
  · rcases hmissing with h | h
    · exact absurd h hurl
    · exact ⟨_, by rw [if_neg hurl, if_pos h]⟩

/-- C8 as amended, at a configuration without index name. -/
theorem New_missing_required_witness :
    (({ sampleConfig with IndexName := "" } : Config).ElasticsearchURL = "" ∨
      ({ sampleConfig with IndexName := "" } : Config).IndexName = "") ∧
    ∃ err, New sampleElastic { sampleConfig with IndexName := "" } = .error err :=
  ⟨by decide, New_missing_required sampleElastic _ (by decide)⟩

/-- C8 fails as stated: with an empty API key and the other options set, `New`
returns a service. -/
theorem New_empty_API_key :
    ({ sampleConfig with ElasticsearchAPIKey := "" } : Config).ElasticsearchAPIKey = "" ∧
    New sampleElastic { sampleConfig with ElasticsearchAPIKey := "" } = .ok sampleService :=
  ⟨rfl, rfl⟩

/-! ### The ingest handler -/

/-- A line of `MaxScanTokenSize` bytes or more before its newline stops the
scanner with `ErrTooLong` and no token. -/
theorem scanLines_long (n : Nat) (rest line : Bytes)
    (h : MaxScanTokenSize ≤ line.length + n) :
    scanLines (List.replicate n 97 ++ 10 :: rest) line
      = ([], some "bufio.Scanner: token too long") := by
  induction n generalizing line with
  | zero =>
    have h0 : MaxScanTokenSize ≤ line.length := by omega
    simp only [List.replicate, List.nil_append, scanLines, if_true, h0]
  | succ n ih =>
    have hne : ¬ ((97 : UInt8) = 10) := by decide
    rw [List.replicate_succ, List.cons_append]
    simp only [scanLines, hne, if_false]
    exact ih (97 :: line) (by simp only [List.length_cons]; omega)

/-- When every `Add` succeeds the loop of `handleIngest` runs to the end of the
tokens and the indexer has received the documents of the admitted tokens, in
order. -/
theorem ingestLoop_all_added {I : Type} (G : Getter) (Add : Adder I)
    (hadd : ∀ indexer item, (Add indexer item).1 = none) (tokens : List Bytes) :
    ∀ svc : Service I, ingestLoop G Add tokens svc =
      (none, { svc with
        indexer := addAll Add svc.indexer (admittedDocuments G svc tokens) }) := by
  induction tokens with
  | nil => intro svc; rfl
  | cons token rest ih =>
    intro svc
    cases hvalid : IsValidEntry G svc token with
    | false =>
      have hw : Write G Add svc token = ((0, none), svc) := by simp [Write, hvalid]
      simp only [ingestLoop, hw]
      rw [ih svc]
      simp [admittedDocuments, List.filter_cons, hvalid]
    | true =>
      have hw := Write_of_valid G Add svc token hvalid
      have h1 := hadd svc.indexer { Action := "create", Body := (TransformEntry G svc token).1 }
      have hsplit : Add svc.indexer { Action := "create", Body := (TransformEntry G svc token).1 }
          = (none, (Add svc.indexer
              { Action := "create", Body := (TransformEntry G svc token).1 }).2) := by
        rw [← h1]
      rw [hsplit] at hw
      simp only [ingestLoop, hw]
      rw [ih]
      simp only [admittedDocuments, List.filter_cons, hvalid, if_true, List.map_cons, addAll,
        List.foldl_cons]
      rfl

/-- C9, as amended. For every request body that the scanner reads to its end
without error (every line shorter than 65536 bytes) and every indexer whose
`Add` succeeds, `handleIngest` answers with the line "error":false and hands to
the indexer, in line order, `TransformEntry` of exactly the lines the filter
admits, one `Add` with action "create" for each. -/
theorem handleIngest_all_added {I : Type} (GetBytes : Getter) (Add : Adder I)
    (svc : Service I) (w : ResponseWriter) (r : Request)
    (hscan : (scanLines r.Body []).2 = none)
    (hadd : ∀ indexer item, (Add indexer item).1 = none) :
    handleIngest GetBytes Add svc w r =
      (Fprintln w "\x7b\"error\":false\x7d",
        { svc with
          indexer := addAll Add svc.indexer
            (admittedDocuments GetBytes svc (scanLines r.Body []).1) }) ∧
    (admittedDocuments GetBytes svc (scanLines r.Body []).1).length =
      ((scanLines r.Body []).1.filter (fun line => IsValidEntry GetBytes svc line)).length := by
  refine ⟨?_, by simp [admittedDocuments]⟩
  simp only [handleIngest, ingestLoop_all_added GetBytes Add hadd, hscan]

/-- A scanner that stops with an error before its first token makes
`handleIngest` answer with the error response and leave the service alone. -/
theorem handleIngest_scan_error {I : Type} (G : Getter) (Add : Adder I) (svc : Service I)
    (w : ResponseWriter) (r : Request) (e : Error)
    (hscan : scanLines r.Body [] = ([], some e)) :
    handleIngest G Add svc w r = (handleError "\x7b\"error\":true\x7d" 500 w r, svc) := by
  unfold handleIngest
  rw [hscan]
  rfl

set_option maxRecDepth 100000

/-- C9 as amended, at the sample body: the three records of allowed sources are
handed to the recording indexer and the answer is "error":false. -/
theorem handleIngest_all_added_witness :
    (scanLines (post sampleBody).Body []).2 = none ∧
    (∀ indexer item, (recordingAdd indexer item).1 = none) ∧
    (handleIngest sampleGet recordingAdd sampleService NewRecorder (post sampleBody) =
      (Fprintln NewRecorder "\x7b\"error\":false\x7d",
        { sampleService with
          indexer := addAll recordingAdd sampleService.indexer
            (admittedDocuments sampleGet sampleService
              (scanLines (post sampleBody).Body []).1) }) ∧
    (admittedDocuments sampleGet sampleService (scanLines (post sampleBody).Body []).1).length =
      ((scanLines (post sampleBody).Body []).1.filter
        (fun line => IsValidEntry sampleGet sampleService line)).length) ∧
    (admittedDocuments sampleGet sampleService (scanLines (post sampleBody).Body []).1).length
      = 3 :=
  ⟨by decide, fun _ _ => rfl,
    handleIngest_all_added sampleGet recordingAdd sampleService NewRecorder (post sampleBody)
      (by decide) (fun _ _ => rfl),
    by decide⟩

/-- C9 fails as stated: a body whose first line has 65536 bytes, followed by a
build record, is answered with status 500 and "error":true although every
`Add` would succeed, and the build record is never handed to the indexer. -/
theorem handleIngest_long_line :
    (∀ indexer item, (recordingAdd indexer item).1 = none) ∧
    IsValidEntry sampleGet sampleService buildRecord = true ∧
    handleIngest sampleGet recordingAdd sampleService NewRecorder (post longLineBody) =
      ({ Code := 500, Body := "\x7b\"error\":true\x7d\n" }, sampleService) := by
  refine ⟨fun _ _ => rfl, by decide, ?_⟩
  have hscan : scanLines (post longLineBody).Body []
      = ([], some "bufio.Scanner: token too long") :=
    scanLines_long 65536 buildRecord [] (by decide)
  rw [handleIngest_scan_error sampleGet recordingAdd sampleService NewRecorder
    (post longLineBody) _ hscan]
  rfl

end Logservice
